import Mathlib

/-!
# Verification of the PMC article ingestion and search pipeline (extract5.py)

A shallow embedding of the pipeline in `src/extract5.py`:

* an XML element model mirroring Python `xml.etree.ElementTree` elements
  (tag, text attribute, ordered children), with `find` / `findall` for
  direct children and for the descendant path `.//tag`;
* the metadata and body normalization inside `fetch_pmc_full_text`;
* the fail-soft ID lookup `fetch_pmc_ids`;
* the collection writer loop `download_pmc_articles_for_pyserini`,
  instrumented with an event trace for the rate-limit delay;
* the result construction of `run_search` (join of ranked hits against the
  id → document map loaded from the collection file);
* a JSON value model for the document serialization round trip.

Network and file-system effects are modelled by explicit outcome values fed
to the functions; exceptions are modelled with `Except`.
-/

namespace Extract5

/-- An ElementTree element: tag name, optional text (Python `elem.text`,
which is `None` when the element carries no leading text), and ordered
child elements. -/
inductive Element : Type where
  | mk : String → Option String → List Element → Element
deriving Repr

def Element.tag : Element → String
  | .mk t _ _ => t

def Element.text : Element → Option String
  | .mk _ x _ => x

def Element.children : Element → List Element
  | .mk _ _ c => c

mutual

/-- All proper descendants of an element, in document (preorder) order;
the element itself is excluded, matching the ElementTree path `.//tag`. -/
def Element.descendants : Element → List Element
  | .mk _ _ cs => descList cs

def descList : List Element → List Element
  | [] => []
  | c :: rest => c :: Element.descendants c ++ descList rest

end

/-- Python `elem.find(".//t")`: first descendant with the given tag. -/
def findDesc (e : Element) (t : String) : Option Element :=
  (Element.descendants e).find? (fun c => c.tag == t)

/-- Python `elem.findall(".//t")`: all descendants with the given tag, in
document order. -/
def findAllDesc (e : Element) (t : String) : List Element :=
  (Element.descendants e).filter (fun c => c.tag == t)

/-- Python `elem.find("t")`: first direct child with the given tag. -/
def findChild (e : Element) (t : String) : Option Element :=
  (Element.children e).find? (fun c => c.tag == t)

/-- Python `elem.findall("t")`: all direct children with the given tag. -/
def findAllChild (e : Element) (t : String) : List Element :=
  (Element.children e).filter (fun c => c.tag == t)

/-! ## Metadata and body normalization (`fetch_pmc_full_text`, lines 58-149) -/

/-- How a Python f-string renders an optional string: `None` prints as the
four characters `None`. -/
def pyStr : Option String → String
  | none => "None"
  | some s => s

/-- Drop leading whitespace characters. -/
def dropLeadWs : List Char → List Char
  | [] => []
  | c :: cs => if c.isWhitespace then dropLeadWs cs else c :: cs

/-- Python `str.strip()`: remove whitespace from both ends. -/
def pyStrip (s : String) : String :=
  ⟨(dropLeadWs (dropLeadWs s.data).reverse).reverse⟩

/-- The flat metadata record assembled by the normalizer.  `title` and
`journal` are optional because the Python code stores `elem.text` directly,
which is `None` for an element that is present but carries no text. -/
structure Metadata where
  title : Option String
  journal : Option String
  authors : List String
  date : String
  abstract : String
  keywords : List String
deriving Repr, DecidableEq

/-- Line 59-60: `title = title_elem.text if title_elem is not None else
f"PMC_{pmc_id}"`.  No truthiness check on the text, so a present element
with no text yields `none`. -/
def extractTitle (pmc_id : String) (root : Element) : Option String :=
  match findDesc root "article-title" with
  | none => some ("PMC_" ++ pmc_id)
  | some e => e.text

/-- Line 63-64: journal name, or the `"Unknown Journal"` sentinel when the
element is absent. -/
def extractJournal (root : Element) : Option String :=
  match findDesc root "journal-title" with
  | none => some "Unknown Journal"
  | some e => e.text

/-- Lines 67-75: walk every `name` descendant of the first `contrib-group`;
append `f"{given_names.text} {surname.text}"` when both children exist. -/
def extractAuthors (root : Element) : List String :=
  match findDesc root "contrib-group" with
  | none => []
  | some cg =>
    (findAllDesc cg "name").foldl (fun acc nm =>
      match findChild nm "surname", findChild nm "given-names" with
      | some s, some g => acc ++ [pyStr g.text ++ " " ++ pyStr s.text]
      | _, _ => acc) []

/-- The text of an optional element when it is truthy in Python (`is not
None` and non-empty), as used for the date parts. -/
def truthyText (e : Option Element) : Option String :=
  match e with
  | some el =>
    match el.text with
    | some t => if t = "" then none else some t
    | none => none
  | none => none

/-- Lines 77-94: join whichever of year/month/day have truthy text with
`"-"`, in that order; `"Unknown Date"` when the `pub-date` element is
absent or no part is present. -/
def extractDate (root : Element) : String :=
  match findDesc root "pub-date" with
  | none => "Unknown Date"
  | some pd =>
    let parts := [truthyText (findChild pd "year"), truthyText (findChild pd "month"),
      truthyText (findChild pd "day")].filterMap id
    if parts = [] then "Unknown Date" else String.intercalate "-" parts

/-- Lines 96-104: stripped text of each truthy `p` descendant of the first
`abstract` element, joined with single spaces; `""` when absent. -/
def extractAbstract (root : Element) : String :=
  match findDesc root "abstract" with
  | none => ""
  | some ab =>
    String.intercalate " "
      ((findAllDesc ab "p").foldl (fun acc p =>
        match p.text with
        | some t => if t = "" then acc else acc ++ [pyStrip t]
        | none => acc) [])

/-- Lines 106-112: stripped text of each truthy `kwd` descendant of the
first `kwd-group` element. -/
def extractKeywords (root : Element) : List String :=
  match findDesc root "kwd-group" with
  | none => []
  | some kg =>
    (findAllDesc kg "kwd").foldl (fun acc k =>
      match k.text with
      | some t => if t = "" then acc else acc ++ [pyStrip t]
      | none => acc) []

/-- Lines 139-146 / 149: the metadata dictionary returned on both body
branches. -/
def extractMetadata (pmc_id : String) (root : Element) : Metadata :=
  { title := extractTitle pmc_id root
    journal := extractJournal root
    authors := extractAuthors root
    date := extractDate root
    abstract := extractAbstract root
    keywords := extractKeywords root }

/-- Lines 125-137: one section's contribution: optional `"\n## title\n"`
heading when the direct `title` child has truthy text, then each truthy
direct `p` child's stripped text followed by a newline. -/
def sectionText (sec : Element) : String :=
  let header :=
    match truthyText (findChild sec "title") with
    | some t => "\n## " ++ pyStrip t ++ "\n"
    | none => ""
  (findAllChild sec "p").foldl (fun acc p =>
    match p.text with
    | some t => if t = "" then acc else acc ++ pyStrip t ++ "\n"
    | none => acc) header

/-- Line 136-137: keep only sections whose text is non-empty, in order. -/
def collectSections : List Element → List String
  | [] => []
  | s :: rest =>
    let t := sectionText s
    if t = "" then collectSections rest else t :: collectSections rest

/-- Lines 120-149: the body string returned alongside the metadata.  With
no `body` container the sentinel `"Full text not available for this
article."` is returned; with a body but no non-empty section the sentinel
`"No readable text found."`; otherwise the section blocks joined by
newlines. -/
def fullTextOf (root : Element) : String :=
  match findDesc root "body" with
  | none => "Full text not available for this article."
  | some body =>
    let blocks := collectSections (findAllDesc body "sec")
    if blocks = [] then "No readable text found." else String.intercalate "\n" blocks

/-! ## HTTP outcomes and exceptions

Network effects are modelled by outcome values describing what the
`requests.get` call and the subsequent body parse would produce.  Python
exceptions that escape a function are modelled with `Except`. -/

/-- An uncaught Python exception relevant to the pipeline. -/
inductive PipelineError where
  | requestException
  | xmlParseError
  | fsOpenError
deriving Repr, DecidableEq

/-- Outcome of the `requests.get` + `ET.fromstring` pair in
`fetch_pmc_full_text`: the request may raise, or return a status code and
a body that either parses to an XML root or is malformed. -/
inductive FetchOutcome where
  | transportError
  | response (status : Nat) (parsedRoot : Option Element)

/-- Body of the esearch JSON response: malformed, or parsed with an
optional `esearchresult.idlist` (absent keys default to `[]`). -/
inductive EsearchBody where
  | malformed (raw : String)
  | parsed (idlist : Option (List String))

/-- Outcome of the `requests.get` call in `fetch_pmc_ids`. -/
inductive IdLookupOutcome where
  | transportError
  | response (status : Nat) (body : EsearchBody)

/-- Lines 21-44, `fetch_pmc_ids`: the whole interaction is inside
`try/except`; transport errors, non-200 statuses and JSON decode errors
all degrade to `[]`.  The `Except` codomain records that no exception
escapes. -/
def fetch_pmc_ids (o : IdLookupOutcome) : Except PipelineError (List String) :=
  match o with
  | .transportError => .ok []
  | .response status body =>
    if status ≠ 200 then .ok []
    else
      match body with
      | .malformed _ => .ok []
      | .parsed idlist => .ok (idlist.getD [])

/-- Lines 46-151, `fetch_pmc_full_text`: the `requests.get` on line 54 and
the `ET.fromstring` on line 56 are not guarded, so a transport error or a
malformed XML body raises out of the function; a non-200 status returns
`(None, "Error retrieving full text.")`; otherwise the normalized
metadata and body text. -/
def fetch_pmc_full_text (pmc_id : String) (o : FetchOutcome) :
    Except PipelineError (Option Metadata × String) :=
  match o with
  | .transportError => .error .requestException
  | .response status parsedRoot =>
    if status = 200 then
      match parsedRoot with
      | none => .error .xmlParseError
      | some root => .ok (some (extractMetadata pmc_id root), fullTextOf root)
    else .ok (none, "Error retrieving full text.")

/-! ## Substring check (Python `in` on strings) -/

/-- Does `pat` occur at the head of `s`? -/
def subAt : List Char → List Char → Bool
  | [], _ => true
  | _ :: _, [] => false
  | p :: ps, c :: cs => p == c && subAt ps cs

/-- Does `pat` occur anywhere in `s`? -/
def subSearch (pat : List Char) : List Char → Bool
  | [] => subAt pat []
  | c :: cs => subAt pat (c :: cs) || subSearch pat cs

/-- Python `pat in s` for strings. -/
def strHasSub (s pat : String) : Bool :=
  subSearch pat.data s.data

/-! ## Collection writer (`download_pmc_articles_for_pyserini`, lines 154-196) -/

/-- One serialized collection document (lines 179-189); field order as in
the Python dict literal. -/
structure Doc where
  id : String
  title : Option String
  journal : Option String
  authors : List String
  date : String
  abstract : String
  keywords : List String
  contents : String
deriving Repr, DecidableEq

/-- Lines 179-189: the document written for one fetched id. -/
def mkDoc (pmc_id : String) (m : Metadata) (full_text : String) : Doc :=
  { id := "PMC" ++ pmc_id
    title := m.title
    journal := m.journal
    authors := m.authors
    date := m.date
    abstract := m.abstract
    keywords := m.keywords
    contents := full_text }

/-- Observable events of one writer run, used to state the throttling
claim: each record fetch, each line written, each skip, and each
`time.sleep` with its duration. -/
inductive Event where
  | fetch (id : String)
  | write (id : String)
  | skip (id : String)
  | sleep (seconds : ℚ)
deriving Repr, DecidableEq

/-- Line 175: the skip test `metadata is None or "Error" in full_text or
"Full text not available" in full_text` for the case where metadata is
present. -/
def skipBody (full_text : String) : Bool :=
  strHasSub full_text "Error" || strHasSub full_text "Full text not available"

/-- Lines 171-194: the writer loop.  Each id is fetched; an exception from
`fetch_pmc_full_text` propagates and aborts the loop; a skipped id writes
nothing and — because of the `continue` — also sleeps nothing; a written
id appends one document and then sleeps 0.34 seconds. -/
def processIds (env : String → FetchOutcome) : List String → Except PipelineError (List Doc × List Event)
  | [] => .ok ([], [])
  | id :: rest =>
    match fetch_pmc_full_text id (env id) with
    | .error e => .error e
    | .ok (none, _) =>
      (processIds env rest).map fun (docs, tr) => (docs, .fetch id :: .skip id :: tr)
    | .ok (some meta, full_text) =>
      if skipBody full_text then
        (processIds env rest).map fun (docs, tr) => (docs, .fetch id :: .skip id :: tr)
      else
        (processIds env rest).map fun (docs, tr) =>
          (mkDoc id meta full_text :: docs, .fetch id :: .write id :: .sleep 0.34 :: tr)

/-- Lines 154-196, `download_pmc_articles_for_pyserini`: look up the ids
(fail-soft), return early with no file when none are found, otherwise open
the collection file — an OS error there is uncaught and fatal — and run
the writer loop.  `none` in the result means the early `return` with no
file created. -/
def download_pmc_articles_for_pyserini (idLookup : IdLookupOutcome)
    (env : String → FetchOutcome) (fsOpenOk : Bool) :
    Except PipelineError (Option (List Doc × List Event)) :=
  match fetch_pmc_ids idLookup with
  | .error e => .error e
  | .ok [] => .ok none
  | .ok (id0 :: ids) =>
    if fsOpenOk then
      (processIds env (id0 :: ids)).map some
    else .error .fsOpenError

/-! ## Query runner (`run_search`, lines 245-332)

Scores carry no arithmetic in the script beyond being copied from the hit
into the result, so they are embedded as exact rationals. -/

/-- One line of the results file: either a hit joined with the stored
document (field order as in the Python dict on lines 290-299) or the
lines 301-306 record carrying the explicit error marker. -/
inductive SearchResult where
  | found (rank : Nat) (docId : String) (score : ℚ) (date : String)
      (journalName : Option String) (authors : List String) (title : Option String)
      (abstract : String)
  | missing (rank : Nat) (docId : String) (score : ℚ) (error : String)
deriving Repr, DecidableEq

def SearchResult.rank : SearchResult → Nat
  | .found r _ _ _ _ _ _ _ => r
  | .missing r _ _ _ => r

def SearchResult.docId : SearchResult → String
  | .found _ d _ _ _ _ _ _ => d
  | .missing _ d _ _ => d

def SearchResult.score : SearchResult → ℚ
  | .found _ _ s _ _ _ _ _ => s
  | .missing _ _ s _ => s

/-- Lines 258-263: `raw_docs[doc['id']] = doc` for each line — a dict
lookup where a later line with the same id overwrites an earlier one. -/
def loadMap (lines : List Doc) : String → Option Doc :=
  fun k => lines.foldl (fun acc d => if d.id = k then some d else acc) none

/-- Lines 287-306: the result record for the hit at 0-based position `i`. -/
def resultFor (map : String → Option Doc) (i : Nat) (hit : String × ℚ) : SearchResult :=
  match map hit.1 with
  | some d => .found (i + 1) hit.1 hit.2 d.date d.journal d.authors d.title d.abstract
  | none => .missing (i + 1) hit.1 hit.2 "Not found in local data file"

/-- Lines 284-308: `for i, hit in enumerate(hits)`. -/
def buildResultsFrom (map : String → Option Doc) : Nat → List (String × ℚ) → List SearchResult
  | _, [] => []
  | i, h :: rest => resultFor map i h :: buildResultsFrom map (i + 1) rest

def buildResults (map : String → Option Doc) (hits : List (String × ℚ)) : List SearchResult :=
  buildResultsFrom map 0 hits

/-- Outcome of opening and decoding the collection file (lines 259-269). -/
inductive CollectionFileOutcome where
  | missing
  | malformed
  | ok (lines : List Doc)

/-- Outcome of the guarded searcher block (lines 272-278). -/
inductive SearchOutcome where
  | raised
  | ok (hits : List (String × ℚ))

/-- Outcome of writing the results file (lines 322-328); the `except`
clause absorbs any error. -/
inductive SaveOutcome where
  | raised
  | ok

/-- Lines 245-332, `run_search`: a missing or malformed collection file and
a searcher exception each return `None` (no exception escapes); a failure
while saving the results file is caught and the results are still
returned. -/
def run_search (file : CollectionFileOutcome) (search : SearchOutcome)
    (save : SaveOutcome) : Except PipelineError (Option (List SearchResult)) :=
  match file with
  | .missing => .ok none
  | .malformed => .ok none
  | .ok lines =>
    match search with
    | .raised => .ok none
    | .ok hits =>
      let results := buildResults (loadMap lines) hits
      match save with
      | .raised => .ok (some results)
      | .ok => .ok (some results)

/-! ## JSON values and the document serialization (lines 179-191 / 260-263)

`json.dumps` / `json.loads` are Python standard library collaborators; the
embedding works at the level of the JSON values they exchange.  A document
line only ever holds strings, nulls and arrays of strings. -/

inductive JValue where
  | null
  | str (s : String)
  | arr (items : List JValue)
  | obj (fields : List (String × JValue))

def optStrJ : Option String → JValue
  | none => .null
  | some s => .str s

/-- Lines 179-189: the dict passed to `json.dumps`, in field order. -/
def Doc.toJson (d : Doc) : JValue :=
  .obj [("id", .str d.id), ("title", optStrJ d.title), ("journal", optStrJ d.journal),
    ("authors", .arr (d.authors.map JValue.str)), ("date", .str d.date),
    ("abstract", .str d.abstract), ("keywords", .arr (d.keywords.map JValue.str)),
    ("contents", .str d.contents)]

def jStr? : JValue → Option String
  | .str s => some s
  | _ => none

def jOptStr? : JValue → Option (Option String)
  | .null => some none
  | .str s => some (some s)
  | _ => none

def decodeStrList : List JValue → Option (List String)
  | [] => some []
  | .str s :: rest => (decodeStrList rest).map (s :: ·)
  | _ => none

def jStrList? : JValue → Option (List String)
  | .arr items => decodeStrList items
  | _ => none

/-- Reading one parsed collection line back into a document: each field is
looked up by key and decoded at its expected type. -/
def Doc.ofJson : JValue → Option Doc
  | .obj fields => do
    let id ← (fields.lookup "id").bind jStr?
    let title ← (fields.lookup "title").bind jOptStr?
    let journal ← (fields.lookup "journal").bind jOptStr?
    let authors ← (fields.lookup "authors").bind jStrList?
    let date ← (fields.lookup "date").bind jStr?
    let abstract ← (fields.lookup "abstract").bind jStr?
    let keywords ← (fields.lookup "keywords").bind jStrList?
    let contents ← (fields.lookup "contents").bind jStr?
    some (Doc.mk id title journal authors date abstract keywords contents)
  | _ => none

/-! ## Specification-side descriptions and concrete fixtures -/

/-- A fetch outcome that cannot raise out of `fetch_pmc_full_text`: no
transport error, and a success status only together with a well-formed XML
body. -/
def benign : FetchOutcome → Bool
  | .transportError => false
  | .response status parsedRoot => status ≠ 200 || parsedRoot.isSome

/-- The line the writer produces for one identifier, if any: a document is
written exactly when the fetch succeeded with a parsed record and the body
text passes the substring skip test. -/
def docFor (id : String) (o : FetchOutcome) : Option Doc :=
  match o with
  | .transportError => none
  | .response status parsedRoot =>
    if status = 200 then
      match parsedRoot with
      | some root =>
        if skipBody (fullTextOf root) then none
        else some (mkDoc id (extractMetadata id root) (fullTextOf root))
      | none => none
    else none

/-- The trace block one identifier contributes to a successful run. -/
def eventsFor (id : String) (o : FetchOutcome) : List Event :=
  match o with
  | .transportError => [.fetch id, .skip id]
  | .response status parsedRoot =>
    if status = 200 then
      match parsedRoot with
      | some root =>
        if skipBody (fullTextOf root) then [.fetch id, .skip id]
        else [.fetch id, .write id, .sleep 0.34]
      | none => [.fetch id, .skip id]
    else [.fetch id, .skip id]

/-- Scanner for the throttling property: `ok` records whether a sleep (or
the start of the run) separates us from the previous fetch; every fetch
must find `ok` set. -/
def sleptSinceFetch : Bool → List Event → Bool
  | _, [] => true
  | ok, .fetch _ :: rest => ok && sleptSinceFetch false rest
  | _, .sleep _ :: rest => sleptSinceFetch true rest
  | ok, .write _ :: rest => sleptSinceFetch ok rest
  | ok, .skip _ :: rest => sleptSinceFetch ok rest

/-- Modelled from the spec: "a fixed inter-request delay … is enforced
between every pair of consecutive record fetches" — between any two
consecutive fetch events of the trace some sleep event occurs. -/
def delayBetweenFetches (tr : List Event) : Bool :=
  sleptSinceFetch true tr

/-- A record whose `article-title` element is present but carries no text,
so `title_elem.text` is `None`. -/
def nullTitleRecord : Element :=
  .mk "pmc-articleset" none
    [.mk "article" none
      [.mk "front" none [.mk "article-title" none []],
       .mk "body" none [.mk "sec" none [.mk "p" (some "Fiber intake improves outcomes.") []]]]]

/-- A record with a `body` container but zero sections. -/
def emptyBodyRecord : Element :=
  .mk "article" none [.mk "body" none []]

/-- A record with no `body` container at all. -/
def noBodyRecord : Element :=
  .mk "article" none [.mk "front" none [.mk "article-title" (some "A title") []]]

/-- A successfully fetched record whose body text happens to contain the
word `Error`. -/
def errorWordRecord : Element :=
  .mk "article" none
    [.mk "body" none [.mk "sec" none [.mk "p" (some "Error bars denote standard deviation.") []]]]

/-- An ordinary healthy record. -/
def rec100 : Element :=
  .mk "article" none
    [.mk "front" none [.mk "article-title" (some "Diet and Inflammation") []],
     .mk "body" none [.mk "sec" none [.mk "p" (some "Mediterranean diet reduces inflammation.") []]]]

/-- Environment where id `100` fetches a healthy record and every other id
fails with a 500 status. -/
def envC3 : String → FetchOutcome :=
  fun id => if id = "100" then .response 200 (some rec100) else .response 500 none

/-- Environment where id `200` fetches a healthy record and every other id
fails with a 500 status. -/
def envC9 : String → FetchOutcome :=
  fun id => if id = "200" then .response 200 (some rec100) else .response 500 none

def d100 : Doc :=
  { id := "100", title := some "Diet and Inflammation", journal := some "Journal of Nutrition"
    authors := ["Ada Lovelace"], date := "2020-5-1", abstract := "A study."
    keywords := ["diet"], contents := "Mediterranean diet reduces inflammation.\n" }

def d200 : Doc :=
  { id := "200", title := some "Cholesterol Management", journal := some "Cardiology Letters"
    authors := ["Grace Hopper", "Alan Turing"], date := "2019", abstract := "Another study."
    keywords := ["cholesterol", "diet"], contents := "Statins and diet.\n" }

def d300 : Doc :=
  { id := "300", title := none, journal := some "Unknown Journal"
    authors := [], date := "Unknown Date", abstract := ""
    keywords := [], contents := "Some body.\n" }

/-- The hit list of the specification's worked example. -/
def specHits : List (String × ℚ) := [("100", 2.1), ("300", 1.5)]

/-- A contributor group with one complete name, one name lacking
given-names, and one name lacking a surname. -/
def authCg : Element :=
  .mk "contrib-group" none
    [.mk "name" none [.mk "surname" (some "Lovelace") [], .mk "given-names" (some "Ada") []],
     .mk "name" none [.mk "surname" (some "Turing") []],
     .mk "name" none [.mk "given-names" (some "Grace") []]]

def authorsRecord : Element :=
  .mk "article" none [authCg]

/-- Modelled from the spec: "join whichever of year/month/day are present
with a separator, in that order; if none present, use the unknown-date
sentinel" — spelled out for each of the eight presence patterns. -/
def joinDateParts : Option String → Option String → Option String → String
  | none, none, none => "Unknown Date"
  | some y, none, none => y
  | none, some m, none => m
  | none, none, some d => d
  | some y, some m, none => y ++ "-" ++ m
  | some y, none, some d => y ++ "-" ++ d
  | none, some m, some d => m ++ "-" ++ d
  | some y, some m, some d => y ++ "-" ++ m ++ "-" ++ d

/-- A record whose `pub-date` has a year but no month or day. -/
def yearOnlyPubDate : Element :=
  .mk "pub-date" none [.mk "year" (some "2020") []]

def yearOnlyRecord : Element :=
  .mk "article" none [yearOnlyPubDate]

/-- A `pub-date` with year and month but no day. -/
def ymPubDate : Element :=
  .mk "pub-date" none [.mk "year" (some "2020") [], .mk "month" (some "5") []]

def ymRecord : Element :=
  .mk "article" none [ymPubDate]

/-- A `pub-date` with month and day but no year. -/
def mdPubDate : Element :=
  .mk "pub-date" none [.mk "month" (some "5") [], .mk "day" (some "1") []]

def mdRecord : Element :=
  .mk "article" none [mdPubDate]

/-! # Theorems -/

/-! ## Normalizer: sentinel defaulting (C1) -/

/-- C1 counterexample: the claim says every Metadata field is non-null,
but for a record whose `article-title` element is present with no text the
normalizer stores `None` as the title. -/
theorem metadata_nonnull_cex :
    (findDesc nullTitleRecord "article-title").isSome = true ∧
    (extractMetadata "123" nullTitleRecord).title = none :=
  ⟨rfl, rfl⟩

/-- C1 amended: each metadata field absent from the raw record is replaced
by its sentinel default (title `PMC_<id>`, journal `Unknown Journal`,
empty author and keyword sequences, empty abstract, unknown-date
sentinel); in particular a missing author list yields the empty sequence.
(When the title or journal element is present without text, its null text
is stored as-is — see the counterexample.) -/
theorem metadata_sentinel_defaults (pmc_id : String) (root : Element) :
    (findDesc root "article-title" = none →
      (extractMetadata pmc_id root).title = some ("PMC_" ++ pmc_id)) ∧
    (findDesc root "journal-title" = none →
      (extractMetadata pmc_id root).journal = some "Unknown Journal") ∧
    (findDesc root "contrib-group" = none → (extractMetadata pmc_id root).authors = []) ∧
    (findDesc root "pub-date" = none → (extractMetadata pmc_id root).date = "Unknown Date") ∧
    (findDesc root "abstract" = none → (extractMetadata pmc_id root).abstract = "") ∧
    (findDesc root "kwd-group" = none → (extractMetadata pmc_id root).keywords = []) := by
  refine ⟨fun h => ?_, fun h => ?_, fun h => ?_, fun h => ?_, fun h => ?_, fun h => ?_⟩
  · simp [extractMetadata, extractTitle, h]
  · simp [extractMetadata, extractJournal, h]
  · simp [extractMetadata, extractAuthors, h]
  · simp [extractMetadata, extractDate, h]
  · simp [extractMetadata, extractAbstract, h]
  · simp [extractMetadata, extractKeywords, h]

theorem metadata_sentinel_defaults_witness :
    (extractMetadata "42" (.mk "article" none [])).title = some ("PMC_" ++ "42") ∧
    (extractMetadata "42" (.mk "article" none [])).journal = some "Unknown Journal" ∧
    (extractMetadata "42" (.mk "article" none [])).authors = [] ∧
    (extractMetadata "42" (.mk "article" none [])).date = "Unknown Date" ∧
    (extractMetadata "42" (.mk "article" none [])).abstract = "" ∧
    (extractMetadata "42" (.mk "article" none [])).keywords = [] := by
  have h := metadata_sentinel_defaults "42" (.mk "article" none [])
  exact ⟨h.1 rfl, h.2.1 rfl, h.2.2.1 rfl, h.2.2.2.1 rfl, h.2.2.2.2.1 rfl, h.2.2.2.2.2 rfl⟩

/-! ## Normalizer: author extraction (C10) -/

theorem authorsFold_eq (l : List Element) (acc : List String) :
    l.foldl (fun acc nm =>
      match findChild nm "surname", findChild nm "given-names" with
      | some s, some g => acc ++ [pyStr g.text ++ " " ++ pyStr s.text]
      | _, _ => acc) acc =
    acc ++ ((l.filter
        (fun nm => (findChild nm "surname").isSome && (findChild nm "given-names").isSome)).map
      (fun nm => pyStr ((findChild nm "given-names").bind Element.text) ++ " " ++
        pyStr ((findChild nm "surname").bind Element.text))) := by
  induction l generalizing acc with
  | nil => simp
  | cons nm t ih =>
    cases hs : findChild nm "surname" <;> cases hg : findChild nm "given-names" <;>
      simp [hs, hg, ih, List.append_assoc]

/-- C10: a `name` element of the first contributor group contributes an
author entry iff it has both a `surname` and a `given-names` child; the
entry is the given-names text, a space, then the surname text, and entries
appear in document order. -/
theorem authors_iff_both_name_parts (root cg : Element)
    (h : findDesc root "contrib-group" = some cg) :
    extractAuthors root =
      ((findAllDesc cg "name").filter
        (fun nm => (findChild nm "surname").isSome && (findChild nm "given-names").isSome)).map
        (fun nm => pyStr ((findChild nm "given-names").bind Element.text) ++ " " ++
          pyStr ((findChild nm "surname").bind Element.text)) := by
  simp only [extractAuthors, h]
  simpa using authorsFold_eq (findAllDesc cg "name") []

theorem authors_iff_both_name_parts_witness :
    extractAuthors authorsRecord = ["Ada Lovelace"] := by
  rw [authors_iff_both_name_parts authorsRecord authCg rfl]
  rfl

/-! ## Normalizer: date assembly (C5) -/

/-- C5: the date joins whichever of year/month/day are present (with
truthy text) with `-`, in that order — for every one of the eight presence
patterns — and uses the unknown-date sentinel when the `pub-date` element
is absent or no part is present; with a year but no month/day the date is
the year string alone. -/
theorem date_assembly (root : Element) :
    (findDesc root "pub-date" = none → extractDate root = "Unknown Date") ∧
    ∀ pd, findDesc root "pub-date" = some pd →
      extractDate root = joinDateParts (truthyText (findChild pd "year"))
        (truthyText (findChild pd "month")) (truthyText (findChild pd "day")) := by
  refine ⟨fun h => by simp [extractDate, h], fun pd hpd => ?_⟩
  cases hy : truthyText (findChild pd "year") <;>
    cases hm : truthyText (findChild pd "month") <;>
      cases hd : truthyText (findChild pd "day") <;>
        simp only [extractDate, hpd, hy, hm, hd] <;> rfl

theorem date_assembly_witness :
    extractDate yearOnlyRecord = "2020" ∧
    extractDate ymRecord = "2020-5" ∧
    extractDate mdRecord = "5-1" ∧
    extractDate (.mk "article" none []) = "Unknown Date" :=
  ⟨((date_assembly yearOnlyRecord).2 yearOnlyPubDate rfl).trans rfl,
    ((date_assembly ymRecord).2 ymPubDate rfl).trans rfl,
    ((date_assembly mdRecord).2 mdPubDate rfl).trans rfl,
    (date_assembly (.mk "article" none [])).1 rfl⟩

/-! ## Normalizer: body sentinels and the writer's skip test (C4) -/

/-- C4 counterexample: a record with a body container and zero sections
yields the sentinel `"No readable text found."`, which the writer's
substring skip test does not catch — the document is written, not
skipped. -/
theorem zero_sections_written_cex :
    fullTextOf emptyBodyRecord = "No readable text found." ∧
    skipBody (fullTextOf emptyBodyRecord) = false ∧
    processIds (fun _ => .response 200 (some emptyBodyRecord)) ["100"] =
      .ok ([mkDoc "100" (extractMetadata "100" emptyBodyRecord) "No readable text found."],
        [.fetch "100", .write "100", .sleep 0.34]) :=
  ⟨rfl, rfl, rfl⟩

/-- C4 amended: a record with no body container yields the non-empty
sentinel `"Full text not available for this article."`, which the §4.4
skip test catches; a record with a body container but zero sections yields
the distinct non-empty sentinel `"No readable text found."`, which the
skip test does not catch, so such documents are written. -/
theorem body_sentinels (root : Element) :
    (findDesc root "body" = none →
      fullTextOf root = "Full text not available for this article." ∧
      skipBody (fullTextOf root) = true ∧ fullTextOf root ≠ "") ∧
    (∀ b, findDesc root "body" = some b → findAllDesc b "sec" = [] →
      fullTextOf root = "No readable text found." ∧
      skipBody (fullTextOf root) = false ∧ fullTextOf root ≠ "") := by
  constructor
  · intro h
    have hft : fullTextOf root = "Full text not available for this article." := by
      simp [fullTextOf, h]
    refine ⟨hft, ?_, ?_⟩ <;> rw [hft] <;> decide
  · intro b hb hsec
    have hft : fullTextOf root = "No readable text found." := by
      simp [fullTextOf, hb, hsec, collectSections]
    refine ⟨hft, ?_, ?_⟩ <;> rw [hft] <;> decide

theorem body_sentinels_witness :
    fullTextOf noBodyRecord = "Full text not available for this article." ∧
    skipBody (fullTextOf noBodyRecord) = true ∧
    fullTextOf emptyBodyRecord = "No readable text found." ∧
    skipBody (fullTextOf emptyBodyRecord) = false := by
  have h1 := (body_sentinels noBodyRecord).1 rfl
  have h2 := (body_sentinels emptyBodyRecord).2 (.mk "body" none []) rfl rfl
  exact ⟨h1.1, h1.2.1, h2.1, h2.2.1⟩

/-! ## Collection writer -/

/-- A benign environment lets the writer loop run to completion, and the
lines and the trace decompose identifier by identifier. -/
theorem processIds_benign (env : String → FetchOutcome) (ids : List String)
    (h : ∀ id ∈ ids, benign (env id) = true) :
    processIds env ids = .ok (ids.filterMap (fun id => docFor id (env id)),
      ids.flatMap (fun id => eventsFor id (env id))) := by
  induction ids with
  | nil => rfl
  | cons id t ih =>
    have hb : benign (env id) = true := h id (List.mem_cons_self id t)
    have ih2 := ih (fun x hx => h x (List.mem_cons_of_mem id hx))
    cases ho : env id with
    | transportError => rw [ho] at hb; simp [benign] at hb
    | response status parsedRoot =>
      by_cases hst : status = 200
      · subst hst
        cases parsedRoot with
        | none => rw [ho] at hb; simp [benign] at hb
        | some root =>
          by_cases hsk : skipBody (fullTextOf root) = true
          · simp [processIds, ho, fetch_pmc_full_text, hsk, ih2, docFor, eventsFor, Except.map]
          · simp [processIds, ho, fetch_pmc_full_text, hsk, ih2, docFor, eventsFor, Except.map]
      · simp [processIds, ho, fetch_pmc_full_text, hst, ih2, docFor, eventsFor, Except.map]

/-- C3 counterexample: identifier 100 fetches successfully and its body is
neither sentinel, yet no line is written for it — the skip test matches
the substring `Error` inside ordinary body text. -/
theorem good_fetch_skipped_cex :
    fullTextOf errorWordRecord = "Error bars denote standard deviation.\n" ∧
    processIds (fun _ => .response 200 (some errorWordRecord)) ["100"] =
      .ok ([], [.fetch "100", .skip "100"]) :=
  ⟨rfl, rfl⟩

/-- C3 amended: in a run over a benign environment the writer processes
the identifiers in order and writes exactly one line per identifier whose
fetch succeeded with a parsed record and whose body text contains neither
`"Error"` nor `"Full text not available"` as a substring; every other
identifier is skipped with no line written. -/
theorem writer_lines (env : String → FetchOutcome) (ids : List String)
    (h : ∀ id ∈ ids, benign (env id) = true) :
    (processIds env ids).map (fun r => r.1) =
      .ok (ids.filterMap (fun id => docFor id (env id))) := by
  rw [processIds_benign env ids h]
  rfl

theorem writer_lines_witness :
    (processIds envC3 ["100", "200"]).map (fun r => r.1) =
      .ok [mkDoc "100" (extractMetadata "100" rec100) (fullTextOf rec100)] := by
  rw [writer_lines envC3 ["100", "200"] (by decide)]
  rfl

/-- C9 counterexample: identifier 100 is skipped, and no sleep event
separates its fetch from the fetch of identifier 200 — the `continue`
bypasses the `time.sleep(0.34)`. -/
theorem delay_between_fetches_cex :
    (processIds envC9 ["100", "200"]).map (fun r => r.2) =
      .ok [.fetch "100", .skip "100", .fetch "200", .write "200", .sleep 0.34] ∧
    delayBetweenFetches
      [.fetch "100", .skip "100", .fetch "200", .write "200", .sleep 0.34] = false :=
  ⟨rfl, rfl⟩

/-- C9 amended: in a successful run the trace decomposes per identifier: a
written identifier contributes fetch, write, sleep 0.34 in that order, and
a skipped identifier contributes fetch, skip with no sleep — the 0.34 time
unit delay follows every written fetch, and no delay separates a skipped
fetch from the next one. -/
theorem delay_follows_writes (env : String → FetchOutcome) (ids : List String)
    (h : ∀ id ∈ ids, benign (env id) = true) :
    (processIds env ids).map (fun r => r.2) =
      .ok (ids.flatMap (fun id => eventsFor id (env id))) := by
  rw [processIds_benign env ids h]
  rfl

theorem delay_follows_writes_witness :
    (processIds envC3 ["100", "200"]).map (fun r => r.2) =
      .ok [.fetch "100", .write "100", .sleep 0.34, .fetch "200", .skip "200"] := by
  rw [delay_follows_writes envC3 ["100", "200"] (by decide)]
  rfl

/-! ## Failure propagation (C2) -/

/-- C2 counterexample: a malformed XML body — and likewise a transport
error — in the record fetch is not absorbed: it propagates out of the
writer loop and aborts the run, although it is not a file-system error. -/
theorem record_fetch_failure_aborts_cex :
    download_pmc_articles_for_pyserini (.response 200 (.parsed (some ["100"])))
      (fun _ => .response 200 none) true = .error .xmlParseError ∧
    download_pmc_articles_for_pyserini (.response 200 (.parsed (some ["100"])))
      (fun _ => .transportError) true = .error .requestException :=
  ⟨rfl, rfl⟩

/-- C2 amended: the ID lookup absorbs every failure and returns a list; a
non-success status in the record fetch is absorbed into a sentinel pair;
the query runner absorbs a missing or malformed collection file, a search
failure and a save failure; a file-system error opening the collection
file is fatal; and a run whose record fetches neither raise transport
errors nor return malformed XML on a success status completes without
aborting.  (Transport errors and malformed XML in the record fetch, by the
counterexample, do abort the run.) -/
theorem failure_absorption (idLookup : IdLookupOutcome) (env : String → FetchOutcome)
    (file : CollectionFileOutcome) (search : SearchOutcome) (save : SaveOutcome)
    (ids : List String) (hids : fetch_pmc_ids idLookup = .ok ids)
    (hbenign : ∀ id ∈ ids, benign (env id) = true) :
    (∀ o : IdLookupOutcome, ∃ l, fetch_pmc_ids o = .ok l) ∧
    fetch_pmc_ids .transportError = .ok [] ∧
    (∀ status body, status ≠ 200 → fetch_pmc_ids (.response status body) = .ok []) ∧
    (∀ raw, fetch_pmc_ids (.response 200 (.malformed raw)) = .ok []) ∧
    (∀ pmc_id status parsedRoot, status ≠ 200 →
      fetch_pmc_full_text pmc_id (.response status parsedRoot) =
        .ok (none, "Error retrieving full text.")) ∧
    (∃ r, run_search file search save = .ok r) ∧
    (∃ res, download_pmc_articles_for_pyserini idLookup env true = .ok res) ∧
    (ids ≠ [] → download_pmc_articles_for_pyserini idLookup env false = .error .fsOpenError) := by
  refine ⟨?_, rfl, ?_, fun raw => rfl, ?_, ?_, ?_, ?_⟩
  · intro o
    cases o with
    | transportError => exact ⟨[], rfl⟩
    | response status body =>
      by_cases hst : status = 200
      · cases body with
        | malformed raw => exact ⟨[], by simp [fetch_pmc_ids, hst]⟩
        | parsed idlist => exact ⟨idlist.getD [], by simp [fetch_pmc_ids, hst]⟩
      · exact ⟨[], by simp [fetch_pmc_ids, hst]⟩
  · intro status body hst
    simp [fetch_pmc_ids, hst]
  · intro pmc_id status parsedRoot hst
    simp [fetch_pmc_full_text, hst]
  · cases file with
    | missing => exact ⟨none, rfl⟩
    | malformed => exact ⟨none, rfl⟩
    | ok lines =>
      cases search with
      | raised => exact ⟨none, rfl⟩
      | ok hits => cases save <;> exact ⟨_, rfl⟩
  · cases ids with
    | nil => exact ⟨none, by simp [download_pmc_articles_for_pyserini, hids]⟩
    | cons id0 t =>
      refine ⟨some (((id0 :: t).filterMap (fun id => docFor id (env id))),
        ((id0 :: t).flatMap (fun id => eventsFor id (env id)))), ?_⟩
      simp [download_pmc_articles_for_pyserini, hids, processIds_benign env _ hbenign,
        Except.map]
  · intro hne
    cases ids with
    | nil => exact absurd rfl hne
    | cons id0 t => simp [download_pmc_articles_for_pyserini, hids]

theorem failure_absorption_witness :
    fetch_pmc_ids .transportError = .ok ([] : List String) ∧
    fetch_pmc_ids (.response 500 (.parsed (some ["1"]))) = .ok [] ∧
    fetch_pmc_ids (.response 200 (.malformed "not json")) = .ok [] ∧
    (∃ l, fetch_pmc_ids (.response 404 (.malformed "oops")) = .ok l) ∧
    fetch_pmc_full_text "100" (.response 404 none) =
      .ok (none, "Error retrieving full text.") ∧
    (∃ r, run_search .missing .raised .ok = .ok r) ∧
    (∃ res, download_pmc_articles_for_pyserini (.response 200 (.parsed (some ["100"])))
      envC3 true = .ok res) ∧
    download_pmc_articles_for_pyserini (.response 200 (.parsed (some ["100"])))
      envC3 false = .error .fsOpenError := by
  have h := failure_absorption (.response 200 (.parsed (some ["100"]))) envC3
    .missing .raised .ok ["100"] rfl (by decide)
  exact ⟨h.2.1, h.2.2.1 500 _ (by decide), h.2.2.2.1 "not json",
    h.1 (.response 404 (.malformed "oops")), h.2.2.2.2.1 "100" 404 none (by decide),
    h.2.2.2.2.2.1, h.2.2.2.2.2.2.1, h.2.2.2.2.2.2.2 (by decide)⟩

/-! ## Query runner -/

theorem resultFor_rank (map : String → Option Doc) (i : Nat) (hit : String × ℚ) :
    (resultFor map i hit).rank = i + 1 := by
  unfold resultFor
  cases map hit.1 <;> rfl

theorem resultFor_docId (map : String → Option Doc) (i : Nat) (hit : String × ℚ) :
    (resultFor map i hit).docId = hit.1 := by
  unfold resultFor
  cases map hit.1 <;> rfl

theorem resultFor_score (map : String → Option Doc) (i : Nat) (hit : String × ℚ) :
    (resultFor map i hit).score = hit.2 := by
  unfold resultFor
  cases map hit.1 <;> rfl

theorem buildResultsFrom_length (map : String → Option Doc) (hits : List (String × ℚ)) :
    ∀ n, (buildResultsFrom map n hits).length = hits.length := by
  induction hits with
  | nil => intro n; rfl
  | cons a t ih => intro n; simp [buildResultsFrom, ih]

theorem buildResultsFrom_get? (map : String → Option Doc) :
    ∀ (hits : List (String × ℚ)) (n i : Nat),
    (buildResultsFrom map n hits)[i]? = (hits[i]?).map (resultFor map (n + i))
  | [], _, _ => by simp [buildResultsFrom]
  | _ :: _, _, 0 => by simp [buildResultsFrom]
  | a :: t, n, (i + 1) => by
    have ih := buildResultsFrom_get? map t (n + 1) i
    simp only [buildResultsFrom, List.getElem?_cons_succ, ih]
    have : n + 1 + i = n + (i + 1) := by omega
    rw [this]

theorem buildResultsFrom_map_score (map : String → Option Doc) :
    ∀ (n : Nat) (hits : List (String × ℚ)),
    (buildResultsFrom map n hits).map SearchResult.score = hits.map Prod.snd
  | _, [] => rfl
  | n, a :: t => by
    simp [buildResultsFrom, resultFor_score, buildResultsFrom_map_score map (n + 1) t]

/-- C6: the query runner emits one result per hit, in hit order, with
1-based contiguous rank, the hit's identifier and exact score, joined —
when the identifier is in the loaded collection map — to the stored
document's metadata; and when the hits are in descending score order so
are the results. -/
theorem run_search_ranks (lines : List Doc) (hits : List (String × ℚ)) :
    (buildResults (loadMap lines) hits).length = hits.length ∧
    (∀ i hit, hits[i]? = some hit →
      ∃ r, (buildResults (loadMap lines) hits)[i]? = some r ∧
        r.rank = i + 1 ∧ r.docId = hit.1 ∧ r.score = hit.2 ∧
        ∀ d, loadMap lines hit.1 = some d →
          r = .found (i + 1) hit.1 hit.2 d.date d.journal d.authors d.title d.abstract) ∧
    (List.Chain' (fun a b => b.2 ≤ a.2) hits →
      List.Chain' (fun a b : SearchResult => b.score ≤ a.score)
        (buildResults (loadMap lines) hits)) := by
  refine ⟨buildResultsFrom_length _ hits 0, ?_, ?_⟩
  · intro i hit hhit
    refine ⟨resultFor (loadMap lines) i hit, ?_, ?_, ?_, ?_, ?_⟩
    · rw [buildResults, buildResultsFrom_get?, hhit]
      simp
    · exact resultFor_rank _ i hit
    · exact resultFor_docId _ i hit
    · exact resultFor_score _ i hit
    · intro d hd
      unfold resultFor
      rw [hd]
  · intro hchain
    have h1 : ((buildResults (loadMap lines) hits).map SearchResult.score).Chain'
        (fun x y => y ≤ x) := by
      rw [buildResults, buildResultsFrom_map_score]
      exact (List.chain'_map Prod.snd).mpr hchain
    exact (List.chain'_map SearchResult.score).mp h1

theorem run_search_ranks_witness :
    (buildResults (loadMap [d100, d200, d300]) specHits).length = 2 ∧
    List.Chain' (fun a b : SearchResult => b.score ≤ a.score)
      (buildResults (loadMap [d100, d200, d300]) specHits) ∧
    (buildResults (loadMap [d100, d200, d300]) specHits)[0]? =
      some (.found 1 "100" 2.1 "2020-5-1" (some "Journal of Nutrition") ["Ada Lovelace"]
        (some "Diet and Inflammation") "A study.") ∧
    (buildResults (loadMap [d100, d200, d300]) specHits)[1]? =
      some (.found 2 "300" 1.5 "Unknown Date" (some "Unknown Journal") [] none "") := by
  have h := run_search_ranks [d100, d200, d300] specHits
  obtain ⟨r0, hr0, -, -, -, hjoin0⟩ := h.2.1 0 ("100", 2.1) rfl
  obtain ⟨r1, hr1, -, -, -, hjoin1⟩ := h.2.1 1 ("300", 1.5) rfl
  have hdesc : List.Chain' (fun a b : String × ℚ => b.2 ≤ a.2) specHits := by
    simp only [specHits]
    exact List.chain'_cons.mpr ⟨by norm_num, List.chain'_singleton _⟩
  refine ⟨h.1.trans rfl, h.2.2 hdesc, ?_, ?_⟩
  · rw [hr0, hjoin0 d100 rfl]
    rfl
  · rw [hr1, hjoin1 d300 rfl]
    rfl

/-- C7: a hit whose identifier is absent from the loaded collection map
still yields a result carrying its rank, identifier, score and the
explicit `"Not found in local data file"` marker, with no metadata fields,
and the remaining hits are still processed (one result per hit). -/
theorem join_miss_marker (lines : List Doc) (hits : List (String × ℚ)) (i : Nat)
    (hit : String × ℚ) (hhit : hits[i]? = some hit)
    (hmiss : loadMap lines hit.1 = none) :
    (buildResults (loadMap lines) hits)[i]? =
      some (.missing (i + 1) hit.1 hit.2 "Not found in local data file") ∧
    (buildResults (loadMap lines) hits).length = hits.length := by
  refine ⟨?_, buildResultsFrom_length _ hits 0⟩
  rw [buildResults, buildResultsFrom_get?, hhit]
  simp [resultFor, hmiss]

theorem join_miss_marker_witness :
    (buildResults (loadMap [d100]) [("100", 2.1), ("999", 0.5)])[1]? =
      some (.missing 2 "999" 0.5 "Not found in local data file") ∧
    (buildResults (loadMap [d100]) [("100", 2.1), ("999", 0.5)]).length = 2 := by
  have h := join_miss_marker [d100] [("100", 2.1), ("999", 0.5)] 1 ("999", 0.5) rfl rfl
  exact ⟨h.1, h.2.trans rfl⟩

/-! ## Serialization round trip (C8) -/

theorem jOptStr_optStrJ (o : Option String) : jOptStr? (optStrJ o) = some o := by
  cases o <;> rfl

theorem decodeStrList_map (l : List String) : decodeStrList (l.map JValue.str) = some l := by
  induction l with
  | nil => rfl
  | cons a t ih => simp [decodeStrList, ih]

/-- C8: serializing a Document to its collection-line JSON value and
parsing that value back yields the identical document — all fields,
including the ordered author and keyword sequences and the contents
string, are preserved. -/
theorem doc_roundtrip (d : Doc) : Doc.ofJson (Doc.toJson d) = some d := by
  obtain ⟨id, title, journal, authors, date, abstract, keywords, contents⟩ := d
  cases title <;> cases journal <;>
    simp [Doc.toJson, Doc.ofJson, optStrJ, jStr?, jOptStr?, jStrList?, decodeStrList_map,
      List.lookup]

end Extract5
